import Mathlib

/-!
# drone-runner-nomad: the polling cycle and the configuration loader

A shallow embedding of `poller.go`, `util.go` and `config.go`.

* Go strings are Lean strings; the string functions that the code calls
  (`strings.HasPrefix`, `strings.SplitN`) are written over the character list.
* A Go `map[string]string` is the list of its entries.  Where the code ranges
  over a map, the list is the sequence of entries in the order in which that
  `range` statement visits them in the run under consideration.
* A Go pointer to a scalar (`*string`, `*int`) is an `Option`.
* The remote calls of one cycle (`Request`, `Accept`, `RegisterOpts`), the clock
  and the random generator are inputs of the cycle; what the cycle does with
  them is recorded as a list of events.
-/

namespace DroneNomad

/-! ## Data model -/

/-- A Go `map[string]string`, as the list of its entries. -/
abbrev GoMap := List (String × String)

/-- The struct `Config.Job` of `config.go`. -/
structure JobConfig where
  Datacenter : List String
  Namespace : String
  Region : String
  Prefix : String
  Labels : GoMap
deriving DecidableEq, Repr

/-- The struct `Config.Task` of `config.go`. -/
structure TaskConfig where
  Compute : Int
  Memory : Int
deriving DecidableEq, Repr

/-- The struct `Config.Image` of `config.go`.  The poller also reads `Entrypoint`,
`Command` and `Args` (the variables `DRONE_IMAGE_ENTRYPOINT`,
`DRONE_IMAGE_COMMAND` and `DRONE_IMAGE_ARGS` of the ignore list), which are
string lists. -/
structure ImageConfig where
  Name : String
  Pull : Bool
  Entrypoint : List String
  Command : List String
  Args : List String
deriving DecidableEq, Repr

/-- The struct `Config.Server` of `config.go`. -/
structure ServerConfig where
  Addr : String
  Proto : String
  Host : String
  Secret : String
  SkipVerify : Bool
  Dump : Bool
  DumpBody : Bool
deriving DecidableEq, Repr

/-- The struct `Config.Callback` of `config.go`. -/
structure CallbackConfig where
  Proto : String
  Host : String
deriving DecidableEq, Repr

/-- The struct `Config` of `config.go`.  `Environ` is `none` for the nil map. -/
structure Config where
  Debug : Bool
  Trace : Bool
  Machine : String
  Job : JobConfig
  Task : TaskConfig
  Image : ImageConfig
  Server : ServerConfig
  Callback : CallbackConfig
  Environ : Option GoMap
deriving DecidableEq, Repr

/-- The fields of `drone.Stage` that the poller reads or writes. -/
structure Stage where
  ID : Int
  BuildID : Int
  Number : Int
  Kind : String
  Type_ : String
  Machine : String
  OS : String
  Arch : String
  Created : Int
  Labels : GoMap
deriving DecidableEq, Repr

/-- The struct `api.Resources`: the two requests the poller may set. -/
structure Resources where
  CPU : Option Int
  MemoryMB : Option Int
deriving DecidableEq, Repr

/-- The driver configuration `task.Config`, one field per key of the map
literal of `poller.go`. -/
structure DriverConfig where
  image : String
  force_pull : Bool
  volumes : List String
  entrypoint : List String
  command : List String
  args : List String
deriving DecidableEq, Repr

/-- The struct `api.Task`, the fields the poller sets. -/
structure Task where
  Name : String
  Driver : String
  Env : Option GoMap
  Resources : Resources
  Config : DriverConfig
deriving DecidableEq, Repr

/-- The struct `api.RestartPolicy`, the field the poller sets. -/
structure RestartPolicy where
  Mode : Option String
deriving DecidableEq, Repr

/-- The struct `api.TaskGroup`, the fields the poller sets. -/
structure TaskGroup where
  Name : Option String
  Tasks : List Task
  RestartPolicy : Option RestartPolicy
deriving DecidableEq, Repr

/-- The struct `api.Constraint`. -/
structure Constraint where
  LTarget : String
  RTarget : String
  Operand : String
deriving DecidableEq, Repr

/-- The struct `api.Job`, the fields the poller sets. -/
structure Job where
  ID : Option String
  Name : Option String
  Type_ : Option String
  Datacenters : List String
  Namespace : Option String
  Region : Option String
  TaskGroups : List TaskGroup
  Meta : GoMap
  Constraints : List Constraint
deriving DecidableEq, Repr

/-- Error values.  The three named ones are the sentinels the poller compares
against with `==` (`context.Canceled`, `context.DeadlineExceeded`,
`client.ErrOptimisticLock`); every other error value is `other`. -/
inductive Err where
  | canceled
  | deadlineExceeded
  | optimisticLock
  | other (msg : String)
deriving DecidableEq, Repr

/-- The logrus levels the poller logs at. -/
inductive Level where
  | trace
  | debug
  | error
deriving DecidableEq, Repr

/-- What one cycle does to the outside: a logrus call or a remote call. -/
inductive Event where
  | log (lvl : Level) (msg : String)
  | request (kind type : String)
  | accept (stage : Stage)
  | register (job : Job)
deriving DecidableEq, Repr

/-- The host the process runs on: `runtime.GOOS`, and the rendering
`time.Unix(sec, 0).String()` in the host's time zone. -/
structure Host where
  GOOS : String
  unixString : Int → String

/-- What one cycle receives from the outside. `request` is the result of
`p.drone.Request` (the client returns a stage whenever the error is nil),
`accept` and `register` are the errors returned by `p.drone.Accept` and by
`RegisterOpts` (`none` for nil), `suffix` is the string drawn by
`uniuri.NewLen(12)` and `now` is `time.Now().String()`. -/
structure Cycle where
  request : Except Err Stage
  accept : Option Err
  register : Option Err
  suffix : String
  now : String

/-- The struct `Poller` of `poller.go`; the two clients are the remote calls
of `Cycle`. -/
structure Poller where
  config : Config

/-! ## util.go -/

/-- The generator `random` of `util.go`, given the draw of `uniuri.NewLen(12)`. -/
def random (suffix : String) : String :=
  "drone-job-" ++ suffix

/-- The function `stringToPtr` of `util.go`. -/
def stringToPtr (str : String) : Option String :=
  some str

/-- The function `intToPtr` of `util.go`. -/
def intToPtr (i : Int) : Option Int :=
  some i

/-- The call `fmt.Sprint` on an integer: its decimal rendering. -/
def Sprint (i : Int) : String :=
  toString i

/-! ## poller.go: the job built in a cycle -/

/-- The task literal of `Poller.do` and the three statements after it
(`poller.go` lines 82 to 110). -/
def Poller.buildTask (p : Poller) (stage : Stage) : Task :=
  let task : Task :=
    { Name := "stage"
      Driver := "docker"
      Env := p.config.Environ
      Resources := { CPU := none, MemoryMB := none }
      Config :=
        { image := p.config.Image.Name
          force_pull := p.config.Image.Pull
          volumes := ["/var/run/docker.sock:/var/run/docker.sock"]
          entrypoint := p.config.Image.Entrypoint
          command := p.config.Image.Command
          args := p.config.Image.Args } }
  let task : Task :=
    if stage.OS = "windows" then
      { task with Config := { task.Config with
          volumes := ["////./pipe/docker_engine:////./pipe/docker_engine"] } }
    else task
  let task : Task :=
    if p.config.Task.Compute ≠ 0 then
      { task with Resources := { task.Resources with CPU := intToPtr p.config.Task.Compute } }
    else task
  let task : Task :=
    if p.config.Task.Memory ≠ 0 then
      { task with Resources := { task.Resources with MemoryMB := intToPtr p.config.Task.Memory } }
    else task
  task

/-- The constraint appended for one label: `fmt.Sprintf` of the key into
the meta attribute, the value, and the operand. -/
def labelConstraint (kv : String × String) : Constraint :=
  { LTarget := "$\x7bmeta." ++ kv.1 ++ "\x7d", RTarget := kv.2, Operand := "=" }

/-- One `range` loop of `Poller.do` appending a constraint per visited label. -/
def appendLabels (cs : List Constraint) (labels : GoMap) : List Constraint :=
  labels.foldl (fun acc kv => acc ++ [labelConstraint kv]) cs

/-- The job literal of `Poller.do` and the statements after it up to the
registration (`poller.go` lines 112 to 181), around the task of lines 82 to
110. -/
def Poller.buildJob (p : Poller) (h : Host) (stage : Stage) (suffix now : String) : Job :=
  let task := p.buildTask stage
  let name := random suffix
  let job : Job :=
    { ID := stringToPtr name
      Name := stringToPtr name
      Type_ := stringToPtr "batch"
      Datacenters := p.config.Job.Datacenter
      Namespace := none
      Region := none
      TaskGroups :=
        [{ Name := stringToPtr "pipeline"
           Tasks := [task]
           RestartPolicy := some { Mode := stringToPtr "fail" } }]
      Meta :=
        [("io.drone", "true"),
         ("io.drone.stage.created", h.unixString stage.Created),
         ("io.drone.stage.scheduled", now),
         ("io.drone.stage.id", Sprint stage.ID),
         ("io.drone.stage.number", Sprint stage.Number),
         ("io.drone.stage.kind", stage.Kind),
         ("io.drone.stage.type", stage.Type_),
         ("io.drone.stage.os", stage.OS),
         ("io.drone.stage.arch", stage.Arch),
         ("io.drone.build.id", Sprint stage.BuildID)]
      Constraints := [] }
  let job : Job :=
    if p.config.Job.Namespace ≠ "" then
      { job with Namespace := stringToPtr p.config.Job.Namespace }
    else job
  let job : Job :=
    if p.config.Job.Region ≠ "" then
      { job with Region := stringToPtr p.config.Job.Region }
    else job
  let job : Job :=
    if h.GOOS ≠ "darwin" then
      { job with Constraints :=
          [{ LTarget := "$\x7battr.kernel.name\x7d", RTarget := stage.OS, Operand := "=" },
           { LTarget := "$\x7battr.cpu.arch\x7d", RTarget := stage.Arch, Operand := "=" }] }
    else job
  let job : Job := { job with Constraints := appendLabels job.Constraints stage.Labels }
  let job : Job := { job with Constraints := appendLabels job.Constraints p.config.Job.Labels }
  job

/-! ## poller.go: one cycle and the loop -/

/-- The method `Poller.do` of `poller.go` (`do` is a keyword here): the
events of the cycle, in order, and the returned error (`none` for nil). -/
def Poller.do_ (p : Poller) (h : Host) (c : Cycle) : List Event × Option Err :=
  let t0 := [Event.log .debug "requesting pipeline from server",
             Event.request "pipeline" "docker"]
  match c.request with
  | .error err =>
    if err = .canceled ∨ err = .deadlineExceeded then
      (t0 ++ [Event.log .trace "no pipeline returned"], none)
    else
      (t0 ++ [Event.log .error "cannot request pipeline"], some err)
  | .ok stage =>
    let t1 := t0 ++ [Event.log .debug "accepting pipeline"]
    let stage := { stage with Machine := p.config.Machine }
    let t2 := t1 ++ [Event.accept stage]
    match c.accept with
    | some err =>
      if err = .optimisticLock then
        (t2 ++ [Event.log .debug "pipeline accepted by another runner"], none)
      else
        (t2 ++ [Event.log .error "cannot accept pipeline"], some err)
    | none =>
      let job := p.buildJob h stage c.suffix c.now
      let t3 := t2 ++ [Event.log .debug "creating nomad job", Event.register job]
      match c.register with
      | some err => (t3 ++ [Event.log .error "cannot create job"], some err)
      | none => (t3 ++ [Event.log .debug "created nomad job"], none)

/-- One iteration of the loop of `Poller.start` as seen from outside: `done`
is `ctx.Err()` when `ctx.Done()` is closed at the top of the iteration
(`none` while the context is live), `cycle` is what the cycle would receive. -/
structure Tick where
  done : Option Err
  cycle : Cycle

/-- The method `Poller.start` of `poller.go`, run against the iterations
`ticks`: the events so far, and the returned error once the loop has returned
(`none` while the loop is still running after all of `ticks`). -/
def Poller.start (p : Poller) (h : Host) : List Tick → List Event × Option Err
  | [] => ([], none)
  | t :: ts =>
    match t.done with
    | some err => ([], some err)
    | none =>
      let tr := (p.do_ h t.cycle).1
      let rest := Poller.start p h ts
      (tr ++ rest.1, rest.2)

/-! ## config.go: the process environment

The environment of the process is the list of its entries, each the text
`key=value`, as package `syscall` keeps it after its first use. The key of an
entry is the text before its first `=`; of two entries with one key the first
is the one the lookups see. -/

/-- The process environment: its entries, in order. -/
abbrev Env := List String

/-- Cut a text at its first `=`: the part before and the part after, or `none`
when there is no `=`. -/
def cutEq : List Char → Option (List Char × List Char)
  | [] => none
  | c :: cs => if c = '=' then some ([], cs) else (cutEq cs).map (fun kv => (c :: kv.1, kv.2))

/-- The value of an entry when its key is `key`. -/
def entryValue (key : String) (e : String) : Option String :=
  match cutEq e.data with
  | some (k, v) => if k = key.data then some (String.mk v) else none
  | none => none

/-- The call `os.LookupEnv`: the value of the first entry with the key, if any; the
empty key is never found. -/
def LookupEnv (env : Env) (key : String) : Option String :=
  if key = "" then none else env.findSome? (entryValue key)

/-- The entry rewrite of `os.Setenv`: the first entry with the key becomes
`key=value`, and without such an entry `key=value` is appended. -/
def setEntry (key value : String) : Env → Env
  | [] => [key ++ "=" ++ value]
  | e :: es =>
    if (cutEq e.data).map Prod.fst = some key.data then (key ++ "=" ++ value) :: es
    else e :: setEntry key value es

/-- The argument check of `os.Setenv`: an empty key, a key holding `=` or the
NUL byte, or a value holding the NUL byte is refused with `EINVAL`. -/
def invalidArg (key value : String) : Bool :=
  key = "" || key.data.contains '=' || key.data.contains (Char.ofNat 0)
    || value.data.contains (Char.ofNat 0)

/-- The call `os.Setenv` as `Load` calls it, the returned error being discarded: a
refused call leaves the environment as it is. -/
def Setenv (env : Env) (key value : String) : Env :=
  if invalidArg key value then env else setEntry key value env

/-- The call `os.Environ`: the entries that are not blank. -/
def Environ (env : Env) : List String :=
  env.filter (fun e => e ≠ "")

/-- The function `strings.HasPrefix`. -/
def HasPrefix (s pre : String) : Bool :=
  pre.data.isPrefixOf s.data

/-- The call `strings.SplitN(s, "=", 2)`: the text before and after the first `=`, or
the text alone when it holds no `=`. -/
def SplitN2 (s : String) : List String :=
  match cutEq s.data with
  | some (k, v) => [String.mk k, String.mk v]
  | none => [s]

/-- Assignment `m[k] = v` on a map that is not nil. -/
def mapSet : GoMap → String → String → GoMap
  | [], k, v => [(k, v)]
  | (k', v') :: rest, k, v =>
    if k' = k then (k, v) :: rest else (k', v') :: mapSet rest k v

/-! ## config.go: the loader -/

/-- The map `legacy` of `config.go`: legacy name, current name. -/
def legacy : List (String × String) :=
  [("DRONE_HOSTNAME", "DRONE_MACHINE"),
   ("DRONE_NOMAD_DATACENTER", "DRONE_JOB_DATACENTER"),
   ("DRONE_NOMAD_NAMESPACE", "DRONE_JOB_NAMESPACE"),
   ("DRONE_NOMAD_REGION", "DRONE_JOB_REGION"),
   ("DRONE_NOMAD_IMAGE", "DRONE_IMAGE"),
   ("DRONE_NOMAD_IMAGE_PULL", "DRONE_IMAGE_PULL"),
   ("DRONE_NOMAD_DEFAULT_RAM", "DRONE_TASK_MEMORY"),
   ("DRONE_NOMAD_DEFAULT_CPU", "DRONE_TASK_COMPUTE"),
   ("DRONE_NOMAD_LABELS", "DRONE_JOB_LABELS"),
   ("DRONE_NOMAD_JOB_PREFIX", "DRONE_JOB_PREFIX")]

/-- The key set `ignore` of `config.go`. -/
def ignore : List String :=
  ["DRONE_JOB_DATACENTER",
   "DRONE_JOB_NAMESPACE",
   "DRONE_JOB_REGION",
   "DRONE_JOB_PREFIX",
   "DRONE_JOB_LABELS",
   "DRONE_TASK_COMPUTE",
   "DRONE_TASK_MEMORY",
   "DRONE_MACHINE",
   "DRONE_IMAGE",
   "DRONE_IMAGE_PULL",
   "DRONE_IMAGE_ENTRYPOINT",
   "DRONE_IMAGE_COMMAND",
   "DRONE_IMAGE_ARGS"]

/-- The body of the first loop of `Load` for one entry of `legacy`. -/
def aliasStep (env : Env) (kv : String × String) : Env :=
  match LookupEnv env kv.1 with
  | some s => Setenv env kv.2 s
  | none => env

/-- The first loop of `Load` (`config.go` lines 96 to 100), the entries of
`legacy` being visited in the order `order`. -/
def aliasLegacy (order : List (String × String)) (env : Env) : Env :=
  order.foldl aliasStep env

/-- The second loop of `Load` (`config.go` lines 121 to 140) over the entries
`entries`, from the map `environ`; `Except.error` is a run-time panic. -/
def collectEnviron : List String → Option GoMap → Except String (Option GoMap)
  | [], environ => .ok environ
  | env :: rest, environ =>
    if !HasPrefix env "DRONE_" then collectEnviron rest environ
    else
      let s := SplitN2 env
      match s.get? 0, s.get? 1 with
      | some k, some v =>
        if k ∈ ignore then collectEnviron rest environ
        else
          let environ := match environ with
            | none => ([] : GoMap)
            | some m => m
          collectEnviron rest (some (mapSet environ k v))
      | _, _ => .error "index out of range"

/-- One callback override at the end of `Load`: `config.Environ[key] = v`
when `v` is not empty; the assignment panics on the nil map. -/
def overrideEnviron (environ : Option GoMap) (key v : String) : Except String (Option GoMap) :=
  if v ≠ "" then
    match environ with
    | none => .error "assignment to entry in nil map"
    | some m => .ok (some (mapSet m key v))
  else .ok environ

/-- What a call of `Load` comes to. -/
inductive LoadResult where
  | ok (config : Config)
  | failed (config : Config) (err : Err)
  | panicked (msg : String)

/-- The function `Load` of `config.go`.  `order` is the order in which the first loop
visits `legacy`; `process env` is the configuration as `envconfig.Process`
leaves it when run in the environment `env`, with the error it returns;
`hostname` is the name returned by `os.Hostname`. -/
def Load (order : List (String × String)) (process : Env → Config × Option Err)
    (hostname : String) (env : Env) : LoadResult :=
  let env := aliasLegacy order env
  let config := (process env).1
  match (process env).2 with
  | some err => .failed config err
  | none =>
    let config : Config :=
      if config.Machine = "" then { config with Machine := hostname } else config
    let config : Config :=
      { config with Server := { config.Server with
          Addr := config.Server.Proto ++ "://" ++ config.Server.Host } }
    match collectEnviron (Environ env) config.Environ with
    | .error msg => .panicked msg
    | .ok environ =>
      match overrideEnviron environ "DRONE_RPC_HOST" config.Callback.Host with
      | .error msg => .panicked msg
      | .ok environ =>
        match overrideEnviron environ "DRONE_RPC_PROTO" config.Callback.Proto with
        | .error msg => .panicked msg
        | .ok environ => .ok { config with Environ := environ }

/-! ## Observers on the events of a cycle -/

/-- Whether the event is a call of the job registration. -/
def Event.isRegister : Event → Bool
  | .register _ => true
  | _ => false

/-- Whether the event is a call of `Accept`. -/
def Event.isAccept : Event → Bool
  | .accept _ => true
  | _ => false

/-- Whether the event is a log event at error level. -/
def Event.isError : Event → Bool
  | .log .error _ => true
  | _ => false

/-! ## The scenario of the specification -/

/-- The configuration of the end-to-end scenario: compute 500, memory 1024,
image foo:latest, no configured labels. -/
def scenarioConfig : Config :=
  { Debug := false
    Trace := false
    Machine := "runner-1"
    Job := { Datacenter := ["dc1"], Namespace := "", Region := "", Prefix := "drone-job-",
             Labels := [] }
    Task := { Compute := 500, Memory := 1024 }
    Image := { Name := "foo:latest", Pull := false, Entrypoint := [], Command := [], Args := [] }
    Server := { Addr := "http://drone.example.com", Proto := "http", Host := "drone.example.com",
                Secret := "s3cret", SkipVerify := false, Dump := false, DumpBody := false }
    Callback := { Proto := "", Host := "" }
    Environ := some [("DRONE_RPC_HOST", "drone.example.com")] }

/-- The stage of the end-to-end scenario. -/
def scenarioStage : Stage :=
  { ID := 42, BuildID := 7, Number := 1, Kind := "pipeline", Type_ := "docker", Machine := "",
    OS := "linux", Arch := "amd64", Created := 1000, Labels := [("region", "us")] }

/-- A host in UTC reporting the operating system `goos`; the rendering of
Unix times is tabulated for second 1000, the creation time of the scenario. -/
def scenarioHost (goos : String) : Host :=
  { GOOS := goos
    unixString := fun sec =>
      if sec = 1000 then "1970-01-01 00:16:40 +0000 UTC" else "1970-01-01 00:00:00 +0000 UTC" }

/-- The poller of the scenario. -/
def scenarioPoller : Poller :=
  { config := scenarioConfig }

/-- A cycle of the scenario: the request returns the scenario stage and the
three remote calls answer as given. -/
def scenarioCycle (request : Except Err Stage) (accept register : Option Err) : Cycle :=
  { request := request
    accept := accept
    register := register
    suffix := "a1B2c3D4e5F6"
    now := "2020-03-01 10:00:00.000000001 +0000 UTC m=+3.000000001" }

/-- Split a text at every occurrence of the character `c`, as `strings.Split`
does with a one-character separator. -/
def splitChar (c : Char) : List Char → List (List Char)
  | [] => [[]]
  | x :: xs =>
    match splitChar c xs with
    | [] => [[x]]
    | part :: parts => if x = c then [] :: part :: parts else (x :: part) :: parts

/-- The reading of a map value by the envconfig library: a blank text is the
empty map, any other text is a comma-separated list of `key:value` pairs, and
an item that is not such a pair is refused. -/
def parseMap (value : String) : Option GoMap :=
  if value.data.all Char.isWhitespace then some []
  else (splitChar ',' value.data).foldl
    (fun acc pair =>
      match acc, splitChar ':' pair with
      | some m, [k, v] => some (mapSet m (String.mk k) (String.mk v))
      | _, _ => none)
    (some [])

/-- A stand-in for `envconfig.Process` on the scenario: it reads the machine
name, the server host and secret and the callback host and protocol from the
environment and fails when the required host or secret is not set.  The
library skips a field only under the tag `ignored`, so the passthrough map,
whose tag is `envconfig:"-"`, is bound like any other field: to the variable
named `-`, read as a map, and left nil when that variable is not set. -/
def scenarioProcess (env : Env) : Config × Option Err :=
  let get := fun (key : String) => (LookupEnv env key).getD ""
  let config : Config :=
    { scenarioConfig with
      Machine := get "DRONE_MACHINE"
      Server := { scenarioConfig.Server with
        Addr := "", Host := get "DRONE_RPC_HOST", Secret := get "DRONE_RPC_SECRET" }
      Callback := { Proto := get "DRONE_CALLBACK_PROTO", Host := get "DRONE_CALLBACK_HOST" }
      Environ := none }
  match LookupEnv env "DRONE_RPC_HOST", LookupEnv env "DRONE_RPC_SECRET" with
  | some _, some _ =>
    match LookupEnv env "-" with
    | none => (config, none)
    | some value =>
      match parseMap value with
      | some m => ({ config with Environ := some m }, none)
      | none => (config, some (.other "invalid map item"))
  | _, _ => (config, some (.other "required key missing value"))

/-! ## Theorems -/

/-- Appending one constraint per visited label is appending the mapped list. -/
theorem appendLabels_eq (cs : List Constraint) (labels : GoMap) :
    appendLabels cs labels = cs ++ labels.map labelConstraint := by
  unfold appendLabels
  induction labels generalizing cs with
  | nil => simp
  | cons kv rest ih => simp [List.foldl_cons, ih]

/-- The built job, field by field. -/
theorem buildJob_eq (p : Poller) (h : Host) (stage : Stage) (suffix now : String) :
    p.buildJob h stage suffix now =
      { ID := some (random suffix)
        Name := some (random suffix)
        Type_ := some "batch"
        Datacenters := p.config.Job.Datacenter
        Namespace := if p.config.Job.Namespace = "" then none else some p.config.Job.Namespace
        Region := if p.config.Job.Region = "" then none else some p.config.Job.Region
        TaskGroups :=
          [{ Name := some "pipeline", Tasks := [p.buildTask stage],
             RestartPolicy := some { Mode := some "fail" } }]
        Meta :=
          [("io.drone", "true"),
           ("io.drone.stage.created", h.unixString stage.Created),
           ("io.drone.stage.scheduled", now),
           ("io.drone.stage.id", Sprint stage.ID),
           ("io.drone.stage.number", Sprint stage.Number),
           ("io.drone.stage.kind", stage.Kind),
           ("io.drone.stage.type", stage.Type_),
           ("io.drone.stage.os", stage.OS),
           ("io.drone.stage.arch", stage.Arch),
           ("io.drone.build.id", Sprint stage.BuildID)]
        Constraints :=
          (if h.GOOS = "darwin" then []
            else [{ LTarget := "$\x7battr.kernel.name\x7d", RTarget := stage.OS, Operand := "=" },
                  { LTarget := "$\x7battr.cpu.arch\x7d", RTarget := stage.Arch, Operand := "=" }])
            ++ stage.Labels.map labelConstraint ++ p.config.Job.Labels.map labelConstraint } := by
  unfold Poller.buildJob stringToPtr
  by_cases h1 : p.config.Job.Namespace = "" <;> by_cases h2 : p.config.Job.Region = ""
    <;> by_cases h3 : h.GOOS = "darwin" <;> simp [h1, h2, h3, appendLabels_eq]

/-- The resource requests of the built task. -/
theorem buildTask_resources (p : Poller) (stage : Stage) :
    (p.buildTask stage).Resources =
      { CPU := if p.config.Task.Compute = 0 then none else some p.config.Task.Compute
        MemoryMB := if p.config.Task.Memory = 0 then none else some p.config.Task.Memory } := by
  unfold Poller.buildTask intToPtr
  by_cases h1 : stage.OS = "windows" <;> by_cases h2 : p.config.Task.Compute = 0
    <;> by_cases h3 : p.config.Task.Memory = 0 <;> simp [h1, h2, h3]

/-- C1: for every stage and configuration the single task of the compiled job
carries no CPU request when Task.Compute is 0 and otherwise the request
Task.Compute itself, and likewise no MemoryMB request when Task.Memory is 0 and
otherwise Task.Memory itself. -/
theorem buildJob_resources (p : Poller) (h : Host) (stage : Stage) (suffix now : String) :
    (p.buildJob h stage suffix now).TaskGroups.map
        (fun g => g.Tasks.map (fun t => (t.Resources.CPU, t.Resources.MemoryMB))) =
      [[(if p.config.Task.Compute = 0 then none else some p.config.Task.Compute,
         if p.config.Task.Memory = 0 then none else some p.config.Task.Memory)]] := by
  rw [buildJob_eq]
  simp [buildTask_resources]

/-- C2: the constraint list of the compiled job is the two base constraints
(kernel name = stage OS, then cpu arch = stage arch) when the host OS is not
darwin and no base constraint on darwin, followed by one meta constraint per
stage label, followed by one meta constraint per configured job label; so every
stage-label constraint precedes every config-label constraint, a key present
in both maps yields two constraints, and the length is (2 or 0) plus the number
of stage labels plus the number of configured labels.  The scenario stage
(linux, amd64, region: us) gives kernel, arch and meta.region on a linux host
and only meta.region on a darwin host. -/
theorem buildJob_constraints_spec :
    (∀ (p : Poller) (h : Host) (stage : Stage) (suffix now : String),
      (p.buildJob h stage suffix now).Constraints =
          (if h.GOOS = "darwin" then []
            else [{ LTarget := "$\x7battr.kernel.name\x7d", RTarget := stage.OS, Operand := "=" },
                  { LTarget := "$\x7battr.cpu.arch\x7d", RTarget := stage.Arch, Operand := "=" }])
            ++ stage.Labels.map
                (fun kv => { LTarget := "$\x7bmeta." ++ kv.1 ++ "\x7d", RTarget := kv.2,
                             Operand := "=" })
            ++ p.config.Job.Labels.map
                (fun kv => { LTarget := "$\x7bmeta." ++ kv.1 ++ "\x7d", RTarget := kv.2,
                             Operand := "=" })
        ∧ (p.buildJob h stage suffix now).Constraints.length =
            (if h.GOOS = "darwin" then 0 else 2) + stage.Labels.length
              + p.config.Job.Labels.length)
    ∧ ((Poller.mk scenarioConfig).buildJob (scenarioHost "linux") scenarioStage "a1B2c3D4e5F6"
          "2020-03-01 10:00:00.000000001 +0000 UTC m=+3.000000001").Constraints =
        [{ LTarget := "$\x7battr.kernel.name\x7d", RTarget := "linux", Operand := "=" },
         { LTarget := "$\x7battr.cpu.arch\x7d", RTarget := "amd64", Operand := "=" },
         { LTarget := "$\x7bmeta.region\x7d", RTarget := "us", Operand := "=" }]
    ∧ ((Poller.mk scenarioConfig).buildJob (scenarioHost "darwin") scenarioStage "a1B2c3D4e5F6"
          "2020-03-01 10:00:00.000000001 +0000 UTC m=+3.000000001").Constraints =
        [{ LTarget := "$\x7bmeta.region\x7d", RTarget := "us", Operand := "=" }] := by
  refine ⟨fun p h stage suffix now => ⟨?_, ?_⟩, by decide, by decide⟩
  · rw [buildJob_eq]
    rfl
  · rw [buildJob_eq]
    by_cases h3 : h.GOOS = "darwin"
    · simp [h3]
    · simp [h3]
      omega

/-- The digit character of a decimal digit is the character 48 places after
NUL, 48 being the code of the character 0. -/
theorem digitChar_eq (d : Nat) (hd : d < 10) : Nat.digitChar d = Char.ofNat (48 + d) := by
  interval_cases d <;> rfl

/-- The digit loop on a positive number puts its decimal digits, the most
significant first, before what was already written. -/
theorem toDigitsCore_eq (fuel n : Nat) (ds : List Char) (hf : n < fuel) (hn : 0 < n) :
    Nat.toDigitsCore 10 fuel n ds
      = (Nat.digits 10 n).reverse.map (fun d => Char.ofNat (48 + d)) ++ ds := by
  induction fuel generalizing n ds with
  | zero => omega
  | succ fuel ih =>
    rw [Nat.digits_def' (by decide) hn]
    unfold Nat.toDigitsCore
    simp only
    by_cases h0 : n / 10 = 0
    · simp [h0, digitChar_eq (n % 10) (Nat.mod_lt _ (by decide))]
    · rw [if_neg h0, ih (n / 10) _ (by omega) (by omega)]
      simp [digitChar_eq (n % 10) (Nat.mod_lt _ (by decide))]

/-- The rendering of a natural number is 0 for zero and otherwise its decimal
digits, the most significant first. -/
theorem repr_eq (n : Nat) :
    Nat.repr n = String.mk (if n = 0 then ['0']
      else (Nat.digits 10 n).reverse.map (fun d => Char.ofNat (48 + d))) := by
  unfold Nat.repr Nat.toDigits List.asString
  by_cases h0 : n = 0
  · subst h0
    rfl
  · rw [if_neg h0, toDigitsCore_eq (n + 1) n [] (by omega) (by omega)]
    simp

/-- The rendering of an integer by `Sprint` is its decimal string: a minus
sign when it is negative, then 0 for zero and otherwise the decimal digits of
its absolute value, the most significant first. -/
theorem Sprint_eq (i : Int) :
    Sprint i = String.mk ((if i < 0 then ['-'] else [])
      ++ (if i = 0 then ['0']
          else (Nat.digits 10 i.natAbs).reverse.map (fun d => Char.ofNat (48 + d)))) := by
  unfold Sprint
  cases i with
  | ofNat n =>
    have h1 : ¬ (Int.ofNat n < 0) := by simp
    show Nat.repr n = _
    rw [repr_eq, if_neg h1]
    by_cases h0 : n = 0
    · simp [h0]
    · simp [h0]
  | negSucc m =>
    have h1 : Int.negSucc m < 0 := Int.negSucc_lt_zero m
    have h2 : Int.negSucc m ≠ 0 := by simp
    show "-" ++ Nat.repr (m + 1) = _
    rw [repr_eq, if_pos h1, if_neg h2, if_neg (by omega)]
    rfl

/-- C7: the compiled job has type batch, exactly one task group holding exactly
one task and the restart policy of mode fail, and its metadata maps
io.drone.stage.id to the decimal string of the stage identifier (a minus sign
when it is negative, then 0 for zero and otherwise the decimal digits of the
absolute value, the most significant first, the digit d being the character of
code 48 + d), io.drone.stage.number and io.drone.build.id to the decimal
strings of the stage number and build identifier, and the kind, type, os and
arch keys to those stage fields.  The scenario (stage 42, compute 500, memory
1024) gives CPU 500, MemoryMB 1024, mode fail and io.drone.stage.id = 42; a
stage with identifier -7 and build identifier 0 gives the strings -7 and 0. -/
theorem buildJob_shape :
    (∀ (p : Poller) (h : Host) (stage : Stage) (suffix now : String),
      (p.buildJob h stage suffix now).Type_ = some "batch"
      ∧ (p.buildJob h stage suffix now).TaskGroups.map
          (fun g => (g.Tasks.length, g.RestartPolicy)) = [(1, some { Mode := some "fail" })]
      ∧ (p.buildJob h stage suffix now).Meta.lookup "io.drone.stage.id"
          = some (String.mk ((if stage.ID < 0 then ['-'] else [])
              ++ (if stage.ID = 0 then ['0']
                  else (Nat.digits 10 stage.ID.natAbs).reverse.map
                    (fun d => Char.ofNat (48 + d)))))
      ∧ (p.buildJob h stage suffix now).Meta.lookup "io.drone.stage.number"
          = some (String.mk ((if stage.Number < 0 then ['-'] else [])
              ++ (if stage.Number = 0 then ['0']
                  else (Nat.digits 10 stage.Number.natAbs).reverse.map
                    (fun d => Char.ofNat (48 + d)))))
      ∧ (p.buildJob h stage suffix now).Meta.lookup "io.drone.stage.kind" = some stage.Kind
      ∧ (p.buildJob h stage suffix now).Meta.lookup "io.drone.stage.type" = some stage.Type_
      ∧ (p.buildJob h stage suffix now).Meta.lookup "io.drone.stage.os" = some stage.OS
      ∧ (p.buildJob h stage suffix now).Meta.lookup "io.drone.stage.arch" = some stage.Arch
      ∧ (p.buildJob h stage suffix now).Meta.lookup "io.drone.build.id"
          = some (String.mk ((if stage.BuildID < 0 then ['-'] else [])
              ++ (if stage.BuildID = 0 then ['0']
                  else (Nat.digits 10 stage.BuildID.natAbs).reverse.map
                    (fun d => Char.ofNat (48 + d))))))
    ∧ ((Poller.mk scenarioConfig).buildJob (scenarioHost "linux") scenarioStage "a1B2c3D4e5F6"
          "2020-03-01 10:00:00.000000001 +0000 UTC m=+3.000000001").TaskGroups.map
        (fun g => (g.Tasks.map (fun t => (t.Resources.CPU, t.Resources.MemoryMB)),
                   g.RestartPolicy.map (fun r => r.Mode)))
        = [([(some 500, some 1024)], some (some "fail"))]
    ∧ ((Poller.mk scenarioConfig).buildJob (scenarioHost "linux") scenarioStage "a1B2c3D4e5F6"
          "2020-03-01 10:00:00.000000001 +0000 UTC m=+3.000000001").Meta.lookup
        "io.drone.stage.id" = some "42"
    ∧ ((Poller.mk scenarioConfig).buildJob (scenarioHost "linux")
          { scenarioStage with ID := -7, BuildID := 0 } "a1B2c3D4e5F6"
          "2020-03-01 10:00:00.000000001 +0000 UTC m=+3.000000001").Meta.lookup
        "io.drone.stage.id" = some "-7"
    ∧ ((Poller.mk scenarioConfig).buildJob (scenarioHost "linux")
          { scenarioStage with ID := -7, BuildID := 0 } "a1B2c3D4e5F6"
          "2020-03-01 10:00:00.000000001 +0000 UTC m=+3.000000001").Meta.lookup
        "io.drone.build.id" = some "0" := by
  refine ⟨fun p h stage suffix now => ?_, by decide, by decide, by decide, by decide⟩
  rw [buildJob_eq]
  refine ⟨rfl, rfl, ?_, ?_, ?_, ?_, ?_, ?_, ?_⟩ <;> simp [List.lookup, Sprint_eq]

/-- C10: the ID and the Name of the compiled job are the same string, the
output of the name generator, which is the literal drone-job- followed by the
12-character random suffix (22 characters in all); replacing the configured
job-name prefix by any other value leaves the compiled job, hence its name,
unchanged. -/
theorem buildJob_name (p : Poller) (h : Host) (stage : Stage) (suffix now : String)
    (hlen : suffix.length = 12) :
    (p.buildJob h stage suffix now).ID = some (random suffix)
    ∧ (p.buildJob h stage suffix now).Name = some (random suffix)
    ∧ random suffix = "drone-job-" ++ suffix
    ∧ (random suffix).length = 22
    ∧ ∀ pre : String,
        (Poller.mk { p.config with Job := { p.config.Job with Prefix := pre } }).buildJob
          h stage suffix now = p.buildJob h stage suffix now := by
  refine ⟨?_, ?_, rfl, ?_, fun pre => ?_⟩
  · rw [buildJob_eq]
  · rw [buildJob_eq]
  · simp [random, String.length_append, hlen]
    decide
  · rw [buildJob_eq, buildJob_eq]
    rfl

/-- Witness of C10 on the scenario with the suffix a1B2c3D4e5F6. -/
theorem buildJob_name_witness :
    "a1B2c3D4e5F6".length = 12
    ∧ ((Poller.mk scenarioConfig).buildJob (scenarioHost "linux") scenarioStage "a1B2c3D4e5F6"
        "2020-03-01 10:00:00.000000001 +0000 UTC m=+3.000000001").ID
        = some "drone-job-a1B2c3D4e5F6" :=
  ⟨by decide,
   (buildJob_name (Poller.mk scenarioConfig) (scenarioHost "linux") scenarioStage "a1B2c3D4e5F6"
      "2020-03-01 10:00:00.000000001 +0000 UTC m=+3.000000001" (by decide)).1⟩

/-- C8, as stated, fails: two compilations of the scenario that draw the same
random name at two clock readings have the same name and differ in the
metadata entry io.drone.stage.scheduled, hence as jobs. -/
theorem buildJob_same_name_differs :
    ((Poller.mk scenarioConfig).buildJob (scenarioHost "linux") scenarioStage "a1B2c3D4e5F6"
        "2020-03-01 10:00:00.000000001 +0000 UTC m=+3.000000001").Name
      = ((Poller.mk scenarioConfig).buildJob (scenarioHost "linux") scenarioStage "a1B2c3D4e5F6"
        "2020-03-01 10:00:05.000000001 +0000 UTC m=+8.000000001").Name
    ∧ ((Poller.mk scenarioConfig).buildJob (scenarioHost "linux") scenarioStage "a1B2c3D4e5F6"
        "2020-03-01 10:00:00.000000001 +0000 UTC m=+3.000000001").Meta.lookup
          "io.drone.stage.scheduled"
      = some "2020-03-01 10:00:00.000000001 +0000 UTC m=+3.000000001"
    ∧ ((Poller.mk scenarioConfig).buildJob (scenarioHost "linux") scenarioStage "a1B2c3D4e5F6"
        "2020-03-01 10:00:05.000000001 +0000 UTC m=+8.000000001").Meta.lookup
          "io.drone.stage.scheduled"
      = some "2020-03-01 10:00:05.000000001 +0000 UTC m=+8.000000001"
    ∧ (Poller.mk scenarioConfig).buildJob (scenarioHost "linux") scenarioStage "a1B2c3D4e5F6"
        "2020-03-01 10:00:00.000000001 +0000 UTC m=+3.000000001"
      ≠ (Poller.mk scenarioConfig).buildJob (scenarioHost "linux") scenarioStage "a1B2c3D4e5F6"
        "2020-03-01 10:00:05.000000001 +0000 UTC m=+8.000000001" := by
  decide

/-- C8, amended: two compilations of the same stage and configuration on the
same host that draw the same random name and visit the label maps in the same
order are equal in every field except the metadata entry
io.drone.stage.scheduled, which holds the clock reading of the compilation;
the first job is the second with that one entry replaced. -/
theorem buildJob_equal_up_to_scheduled (p : Poller) (h : Host) (stage : Stage)
    (suffix now₁ now₂ : String) :
    p.buildJob h stage suffix now₁ =
        { p.buildJob h stage suffix now₂ with
          Meta := (p.buildJob h stage suffix now₂).Meta.map
            (fun kv => if kv.1 = "io.drone.stage.scheduled" then (kv.1, now₁) else kv) }
    ∧ (p.buildJob h stage suffix now₁).Meta.lookup "io.drone.stage.scheduled" = some now₁
    ∧ (p.buildJob h stage suffix now₂).Meta.lookup "io.drone.stage.scheduled" = some now₂ := by
  rw [buildJob_eq, buildJob_eq]
  refine ⟨?_, ?_, ?_⟩ <;> simp [List.lookup]

/-- The cycle when `Request` fails. -/
theorem do_request_error (p : Poller) (h : Host) (c : Cycle) (e : Err)
    (hr : c.request = .error e) :
    p.do_ h c =
      if e = .canceled ∨ e = .deadlineExceeded then
        ([Event.log .debug "requesting pipeline from server", Event.request "pipeline" "docker",
          Event.log .trace "no pipeline returned"], none)
      else
        ([Event.log .debug "requesting pipeline from server", Event.request "pipeline" "docker",
          Event.log .error "cannot request pipeline"], some e) := by
  unfold Poller.do_
  rw [hr]
  by_cases he : e = .canceled ∨ e = .deadlineExceeded <;> simp [he]

/-- The cycle when `Request` succeeds and `Accept` fails. -/
theorem do_accept_error (p : Poller) (h : Host) (c : Cycle) (s : Stage) (e : Err)
    (hr : c.request = .ok s) (ha : c.accept = some e) :
    p.do_ h c =
      if e = .optimisticLock then
        ([Event.log .debug "requesting pipeline from server", Event.request "pipeline" "docker",
          Event.log .debug "accepting pipeline",
          Event.accept { s with Machine := p.config.Machine },
          Event.log .debug "pipeline accepted by another runner"], none)
      else
        ([Event.log .debug "requesting pipeline from server", Event.request "pipeline" "docker",
          Event.log .debug "accepting pipeline",
          Event.accept { s with Machine := p.config.Machine },
          Event.log .error "cannot accept pipeline"], some e) := by
  unfold Poller.do_
  rw [hr, ha]
  by_cases he : e = .optimisticLock <;> simp [he]

/-- The cycle when `Request` and `Accept` succeed. -/
theorem do_accepted (p : Poller) (h : Host) (c : Cycle) (s : Stage)
    (hr : c.request = .ok s) (ha : c.accept = none) :
    p.do_ h c =
      ([Event.log .debug "requesting pipeline from server", Event.request "pipeline" "docker",
        Event.log .debug "accepting pipeline",
        Event.accept { s with Machine := p.config.Machine },
        Event.log .debug "creating nomad job",
        Event.register (p.buildJob h { s with Machine := p.config.Machine } c.suffix c.now),
        (match c.register with
          | some _ => Event.log .error "cannot create job"
          | none => Event.log .debug "created nomad job")],
       c.register) := by
  unfold Poller.do_
  rw [hr, ha]
  cases hg : c.register <;> simp

/-- C3: in every cycle the job registration is invoked if and only if Request
returned a stage with no error and Accept returned no error, and never more
than once; when Accept returns the optimistic-lock error the registration is
not invoked, and when Request fails neither Accept nor the registration is
invoked. -/
theorem do_registers_iff (p : Poller) (h : Host) (c : Cycle) :
    ((p.do_ h c).1.countP Event.isRegister = 1 ↔ (∃ s, c.request = .ok s) ∧ c.accept = none)
    ∧ (p.do_ h c).1.countP Event.isRegister ≤ 1
    ∧ (c.accept = some .optimisticLock → (p.do_ h c).1.countP Event.isRegister = 0)
    ∧ (∀ e, c.request = .error e →
        (p.do_ h c).1.countP Event.isAccept = 0 ∧ (p.do_ h c).1.countP Event.isRegister = 0) := by
  cases hr : c.request with
  | error e =>
    rw [do_request_error p h c e hr]
    by_cases he : e = .canceled ∨ e = .deadlineExceeded <;>
      simp [he, List.countP_cons, Event.isRegister, Event.isAccept]
  | ok s =>
    cases ha : c.accept with
    | some e =>
      rw [do_accept_error p h c s e hr ha]
      by_cases he : e = .optimisticLock <;>
        simp [he, List.countP_cons, Event.isRegister, Event.isAccept]
    | none =>
      rw [do_accepted p h c s hr ha]
      cases hg : c.register <;> simp [List.countP_cons, Event.isRegister, Event.isAccept]

/-- Witness of C3: a cycle whose Accept answers with the optimistic-lock error
registers nothing, a cycle whose Request fails neither accepts nor registers,
and a cycle whose Request and Accept succeed registers once. -/
theorem do_registers_iff_witness :
    ((scenarioCycle (.ok scenarioStage) (some .optimisticLock) none).accept
        = some .optimisticLock
      ∧ (scenarioPoller.do_ (scenarioHost "linux")
          (scenarioCycle (.ok scenarioStage) (some .optimisticLock) none)).1.countP
            Event.isRegister = 0)
    ∧ ((scenarioCycle (.error (.other "connection refused")) none none).request
        = .error (.other "connection refused")
      ∧ (scenarioPoller.do_ (scenarioHost "linux")
          (scenarioCycle (.error (.other "connection refused")) none none)).1.countP
            Event.isAccept = 0
      ∧ (scenarioPoller.do_ (scenarioHost "linux")
          (scenarioCycle (.error (.other "connection refused")) none none)).1.countP
            Event.isRegister = 0)
    ∧ (scenarioPoller.do_ (scenarioHost "linux")
          (scenarioCycle (.ok scenarioStage) none none)).1.countP Event.isRegister = 1 :=
  ⟨⟨rfl, (do_registers_iff scenarioPoller (scenarioHost "linux")
      (scenarioCycle (.ok scenarioStage) (some .optimisticLock) none)).2.2.1 rfl⟩,
   ⟨rfl, (do_registers_iff scenarioPoller (scenarioHost "linux")
      (scenarioCycle (.error (.other "connection refused")) none none)).2.2.2 _ rfl⟩,
   (do_registers_iff scenarioPoller (scenarioHost "linux")
      (scenarioCycle (.ok scenarioStage) none none)).1.2 ⟨⟨scenarioStage, rfl⟩, rfl⟩⟩

/-- C4: the outcome of a cycle follows the error taxonomy.  A Request that
fails with context cancellation or deadline-exceeded, and an Accept that fails
with the optimistic-lock error, end the cycle with no error returned and no
error-level log event; a Request that fails with any other error, an Accept
that fails with any other error and a registration that fails make the cycle
emit exactly one error-level log event and return that same error; when all
three succeed the cycle returns no error and emits no error-level event. -/
theorem do_error_taxonomy (p : Poller) (h : Host) (c : Cycle) :
    (c.request = .error .canceled ∨ c.request = .error .deadlineExceeded →
        (p.do_ h c).2 = none ∧ (p.do_ h c).1.countP Event.isError = 0)
    ∧ (∀ s, c.request = .ok s → c.accept = some .optimisticLock →
        (p.do_ h c).2 = none ∧ (p.do_ h c).1.countP Event.isError = 0)
    ∧ (∀ e, c.request = .error e → e ≠ .canceled → e ≠ .deadlineExceeded →
        (p.do_ h c).2 = some e ∧ (p.do_ h c).1.countP Event.isError = 1)
    ∧ (∀ s e, c.request = .ok s → c.accept = some e → e ≠ .optimisticLock →
        (p.do_ h c).2 = some e ∧ (p.do_ h c).1.countP Event.isError = 1)
    ∧ (∀ s e, c.request = .ok s → c.accept = none → c.register = some e →
        (p.do_ h c).2 = some e ∧ (p.do_ h c).1.countP Event.isError = 1)
    ∧ (∀ s, c.request = .ok s → c.accept = none → c.register = none →
        (p.do_ h c).2 = none ∧ (p.do_ h c).1.countP Event.isError = 0) := by
  refine ⟨?_, ?_, ?_, ?_, ?_, ?_⟩
  · rintro (hr | hr) <;> rw [do_request_error p h c _ hr] <;>
      simp [List.countP_cons, Event.isError]
  · intro s hr ha
    rw [do_accept_error p h c s _ hr ha]
    simp [List.countP_cons, Event.isError]
  · intro e hr h1 h2
    rw [do_request_error p h c e hr]
    simp [h1, h2, List.countP_cons, Event.isError]
  · intro s e hr ha h1
    rw [do_accept_error p h c s e hr ha]
    simp [h1, List.countP_cons, Event.isError]
  · intro s e hr ha hg
    rw [do_accepted p h c s hr ha, hg]
    simp [List.countP_cons, Event.isError]
  · intro s hr ha hg
    rw [do_accepted p h c s hr ha, hg]
    simp [List.countP_cons, Event.isError]

/-- Witness of C4: one scenario cycle for each of the six cases. -/
theorem do_error_taxonomy_witness :
    ((scenarioPoller.do_ (scenarioHost "linux")
        (scenarioCycle (.error .canceled) none none)).2 = none
      ∧ (scenarioPoller.do_ (scenarioHost "linux")
        (scenarioCycle (.error .canceled) none none)).1.countP Event.isError = 0)
    ∧ ((scenarioPoller.do_ (scenarioHost "linux")
        (scenarioCycle (.ok scenarioStage) (some .optimisticLock) none)).2 = none
      ∧ (scenarioPoller.do_ (scenarioHost "linux")
        (scenarioCycle (.ok scenarioStage) (some .optimisticLock) none)).1.countP
          Event.isError = 0)
    ∧ ((scenarioPoller.do_ (scenarioHost "linux")
        (scenarioCycle (.error (.other "connection refused")) none none)).2
          = some (.other "connection refused")
      ∧ (scenarioPoller.do_ (scenarioHost "linux")
        (scenarioCycle (.error (.other "connection refused")) none none)).1.countP
          Event.isError = 1)
    ∧ ((scenarioPoller.do_ (scenarioHost "linux")
        (scenarioCycle (.ok scenarioStage) (some .canceled) none)).2 = some .canceled
      ∧ (scenarioPoller.do_ (scenarioHost "linux")
        (scenarioCycle (.ok scenarioStage) (some .canceled) none)).1.countP Event.isError = 1)
    ∧ ((scenarioPoller.do_ (scenarioHost "linux")
        (scenarioCycle (.ok scenarioStage) none (some (.other "500 server error")))).2
          = some (.other "500 server error")
      ∧ (scenarioPoller.do_ (scenarioHost "linux")
        (scenarioCycle (.ok scenarioStage) none (some (.other "500 server error")))).1.countP
          Event.isError = 1)
    ∧ ((scenarioPoller.do_ (scenarioHost "linux")
        (scenarioCycle (.ok scenarioStage) none none)).2 = none
      ∧ (scenarioPoller.do_ (scenarioHost "linux")
        (scenarioCycle (.ok scenarioStage) none none)).1.countP Event.isError = 0) :=
  ⟨(do_error_taxonomy scenarioPoller (scenarioHost "linux")
      (scenarioCycle (.error .canceled) none none)).1 (Or.inl rfl),
   (do_error_taxonomy scenarioPoller (scenarioHost "linux")
      (scenarioCycle (.ok scenarioStage) (some .optimisticLock) none)).2.1 _ rfl rfl,
   (do_error_taxonomy scenarioPoller (scenarioHost "linux")
      (scenarioCycle (.error (.other "connection refused")) none none)).2.2.1 _ rfl
        (by decide) (by decide),
   (do_error_taxonomy scenarioPoller (scenarioHost "linux")
      (scenarioCycle (.ok scenarioStage) (some .canceled) none)).2.2.2.1 _ _ rfl rfl (by decide),
   (do_error_taxonomy scenarioPoller (scenarioHost "linux")
      (scenarioCycle (.ok scenarioStage) none (some (.other "500 server error")))).2.2.2.2.1
        _ _ rfl rfl rfl,
   (do_error_taxonomy scenarioPoller (scenarioHost "linux")
      (scenarioCycle (.ok scenarioStage) none none)).2.2.2.2.2 _ rfl rfl rfl⟩

/-- While no iteration observes the cancellation the loop keeps running,
whatever the cycles return. -/
theorem start_live (p : Poller) (h : Host) (ticks : List Tick)
    (hl : ∀ t ∈ ticks, t.done = none) :
    p.start h ticks = (ticks.flatMap (fun t => (p.do_ h t.cycle).1), none) := by
  induction ticks with
  | nil => rfl
  | cons t ts ih =>
    have ht : t.done = none := hl t (List.mem_cons_self t ts)
    have hts : ∀ u ∈ ts, u.done = none := fun u hu => hl u (List.mem_cons_of_mem t hu)
    simp [Poller.start, ht, ih hts]

/-- The loop returns at the first iteration that observes the cancellation. -/
theorem start_cancelled (p : Poller) (h : Host) (pre : List Tick) (t : Tick) (post : List Tick)
    (e : Err) (hl : ∀ u ∈ pre, u.done = none) (hd : t.done = some e) :
    p.start h (pre ++ t :: post) = (pre.flatMap (fun u => (p.do_ h u.cycle).1), some e) := by
  induction pre with
  | nil => simp [Poller.start, hd]
  | cons u us ih =>
    have hu : u.done = none := hl u (List.mem_cons_self u us)
    have hus : ∀ v ∈ us, v.done = none := fun v hv => hl v (List.mem_cons_of_mem u hv)
    simp [Poller.start, hu, ih hus]

/-- A loop that has returned has observed the cancellation. -/
theorem start_returned (p : Poller) (h : Host) (ticks : List Tick) (e : Err)
    (hs : (p.start h ticks).2 = some e) :
    ∃ pre t post, ticks = pre ++ t :: post ∧ (∀ u ∈ pre, u.done = none) ∧ t.done = some e := by
  induction ticks with
  | nil => simp [Poller.start] at hs
  | cons t ts ih =>
    cases hd : t.done with
    | some e' =>
      simp [Poller.start, hd] at hs
      exact ⟨[], t, ts, rfl, by simp, by rw [hd, hs]⟩
    | none =>
      simp [Poller.start, hd] at hs
      obtain ⟨pre, u, post, h1, h2, h3⟩ := ih hs
      refine ⟨t :: pre, u, post, by rw [h1]; rfl, ?_, h3⟩
      intro v hv
      rcases List.mem_cons.mp hv with rfl | hv
      · exact hd
      · exact h2 v hv

/-- C9: the loop of Poller.start never returns because of what a cycle
returned.  While no iteration finds the context cancelled the loop is still
running after any number of cycles, each cycle run from the same poller on its
own inputs whatever the earlier cycles returned; the loop returns exactly at
the first iteration that finds the context cancelled at its top, with the
context error, and a loop that has returned has done so in that way. -/
theorem start_exits_only_on_cancel (p : Poller) (h : Host) :
    (∀ ticks : List Tick, (∀ t ∈ ticks, t.done = none) →
        p.start h ticks = (ticks.flatMap (fun t => (p.do_ h t.cycle).1), none))
    ∧ (∀ (pre : List Tick) (t : Tick) (post : List Tick) (e : Err),
        (∀ u ∈ pre, u.done = none) → t.done = some e →
        p.start h (pre ++ t :: post) = (pre.flatMap (fun u => (p.do_ h u.cycle).1), some e))
    ∧ (∀ (ticks : List Tick) (e : Err), (p.start h ticks).2 = some e →
        ∃ pre t post, ticks = pre ++ t :: post ∧ (∀ u ∈ pre, u.done = none)
          ∧ t.done = some e) :=
  ⟨start_live p h, start_cancelled p h, start_returned p h⟩

/-- Witness of C9: two cycles whose Request and registration fail are both
run and the loop is still running; with the cancellation observed at the third
iteration the loop returns the context error after those two cycles. -/
theorem start_exits_only_on_cancel_witness :
    (scenarioPoller.start (scenarioHost "linux")
        [{ done := none, cycle := scenarioCycle (.error (.other "connection refused")) none none },
         { done := none,
           cycle := scenarioCycle (.ok scenarioStage) none (some (.other "500 server error")) }]).2
      = none
    ∧ (scenarioPoller.start (scenarioHost "linux")
        ([{ done := none,
            cycle := scenarioCycle (.error (.other "connection refused")) none none },
          { done := none,
            cycle := scenarioCycle (.ok scenarioStage) none (some (.other "500 server error")) }]
          ++ { done := some .canceled, cycle := scenarioCycle (.ok scenarioStage) none none }
            :: [])).2
      = some .canceled
    ∧ ((scenarioPoller.start (scenarioHost "linux")
        ([{ done := none,
            cycle := scenarioCycle (.error (.other "connection refused")) none none },
          { done := none,
            cycle := scenarioCycle (.ok scenarioStage) none (some (.other "500 server error")) }]
          ++ { done := some .canceled, cycle := scenarioCycle (.ok scenarioStage) none none }
            :: [])).1.countP Event.isError = 2) :=
  ⟨congrArg Prod.snd
      ((start_exits_only_on_cancel scenarioPoller (scenarioHost "linux")).1 _
        (by intro t ht; simp at ht; rcases ht with rfl | rfl <;> rfl)),
   congrArg Prod.snd
      ((start_exits_only_on_cancel scenarioPoller (scenarioHost "linux")).2.1 _ _ _ _
        (by intro t ht; simp at ht; rcases ht with rfl | rfl <;> rfl) rfl),
   by
    rw [(start_exits_only_on_cancel scenarioPoller (scenarioHost "linux")).2.1 _ _ _ _
        (by intro t ht; simp at ht; rcases ht with rfl | rfl <;> rfl) rfl]
    decide⟩

/-! ### The configuration loader -/

/-- Cutting `k=v` gives `k` and `v` when `k` holds no `=`. -/
theorem cutEq_append (k v : List Char) (hk : '=' ∉ k) : cutEq (k ++ '=' :: v) = some (k, v) := by
  induction k with
  | nil => simp [cutEq]
  | cons c cs ih =>
    have hc : c ≠ '=' := fun h => hk (by simp [h])
    have hcs : '=' ∉ cs := fun h => hk (List.mem_cons_of_mem _ h)
    simp [cutEq, hc, ih hcs]

/-- A text that cuts into `k` and `v` is `k=v`. -/
theorem cutEq_eq (l k v : List Char) (h : cutEq l = some (k, v)) : l = k ++ '=' :: v := by
  induction l generalizing k with
  | nil => simp [cutEq] at h
  | cons c cs ih =>
    unfold cutEq at h
    split_ifs at h with hc
    · simp at h
      obtain ⟨rfl, rfl⟩ := h
      simp [hc]
    · cases hcut : cutEq cs with
      | none => simp [hcut] at h
      | some kv =>
        simp [hcut] at h
        obtain ⟨rfl, rfl⟩ := h
        simp [ih kv.1 hcut]

/-- The characters of the entry `key=value`. -/
theorem entry_data (key value : String) :
    (key ++ "=" ++ value).data = key.data ++ '=' :: value.data := by
  simp [String.data_append]

/-- The entry written for a key has, under that key, the value written. -/
theorem entryValue_new_same (key value : String) (hk : '=' ∉ key.data) :
    entryValue key (key ++ "=" ++ value) = some value := by
  simp [entryValue, entry_data, cutEq_append _ _ hk]

/-- The entry written for a key has no value under another key. -/
theorem entryValue_new_other (key value x : String) (hk : '=' ∉ key.data) (hx : x ≠ key) :
    entryValue x (key ++ "=" ++ value) = none := by
  have : key.data ≠ x.data := fun h => hx (String.ext h.symm)
  simp [entryValue, entry_data, cutEq_append _ _ hk, this]

/-- An entry with the key `key` has no value under another key. -/
theorem entryValue_of_key (key x e : String)
    (he : (cutEq e.data).map Prod.fst = some key.data) (hx : x ≠ key) :
    entryValue x e = none := by
  have : key.data ≠ x.data := fun h => hx (String.ext h.symm)
  unfold entryValue
  cases hc : cutEq e.data with
  | none => rfl
  | some kv =>
    rw [hc] at he
    simp at he
    simp [he, this]

/-- An entry with another key has no value under `key`. -/
theorem entryValue_not_key (key e : String)
    (he : (cutEq e.data).map Prod.fst ≠ some key.data) :
    entryValue key e = none := by
  unfold entryValue
  cases hc : cutEq e.data with
  | none => rfl
  | some kv =>
    rw [hc] at he
    simp at he
    simp [he]

/-- After the entry rewrite the key holds the value. -/
theorem lookup_setEntry_same (env : Env) (key value : String) (hne : key ≠ "")
    (hk : '=' ∉ key.data) :
    LookupEnv (setEntry key value env) key = some value := by
  unfold LookupEnv
  rw [if_neg hne]
  induction env with
  | nil => simp [setEntry, entryValue_new_same key value hk]
  | cons e es ih =>
    unfold setEntry
    split_ifs with he
    · simp [List.findSome?_cons, entryValue_new_same key value hk]
    · simp [List.findSome?_cons, entryValue_not_key key e he, ih]

/-- The entry rewrite leaves every other key as it was. -/
theorem lookup_setEntry_other (env : Env) (key value x : String) (hk : '=' ∉ key.data)
    (hx : x ≠ key) :
    LookupEnv (setEntry key value env) x = LookupEnv env x := by
  unfold LookupEnv
  split_ifs with h0
  · rfl
  · induction env with
    | nil => simp [setEntry, entryValue_new_other key value x hk hx]
    | cons e es ih =>
      unfold setEntry
      split_ifs with he
      · simp [List.findSome?_cons, entryValue_new_other key value x hk hx,
          entryValue_of_key key x e he hx]
      · simp [List.findSome?_cons, ih]

/-- What an accepted pair of arguments satisfies. -/
theorem invalidArg_false (key value : String) (h : invalidArg key value = false) :
    key ≠ "" ∧ '=' ∉ key.data ∧ Char.ofNat 0 ∉ key.data ∧ Char.ofNat 0 ∉ value.data := by
  have h2 : ((¬key = "" ∧ '=' ∉ key.data) ∧ Char.ofNat 0 ∉ key.data)
      ∧ Char.ofNat 0 ∉ value.data := by
    simpa [invalidArg] using h
  exact ⟨h2.1.1.1, h2.1.1.2, h2.1.2, h2.2⟩

/-- A key accepted with the empty value is accepted with every NUL-free value. -/
theorem invalidArg_of_valid (key value : String) (h : invalidArg key "" = false)
    (hv : Char.ofNat 0 ∉ value.data) : invalidArg key value = false := by
  have := invalidArg_false key "" h
  simp [invalidArg, this.1, this.2.1, this.2.2.1, hv]

/-- Setting a variable leaves every other variable as it was. -/
theorem lookup_Setenv_other (env : Env) (key value x : String) (hx : x ≠ key) :
    LookupEnv (Setenv env key value) x = LookupEnv env x := by
  unfold Setenv
  cases hi : invalidArg key value with
  | true => simp
  | false =>
    simp
    exact lookup_setEntry_other env key value x (invalidArg_false key value hi).2.1 hx

/-- After an accepted call the variable holds the value. -/
theorem lookup_Setenv_same (env : Env) (key value : String) (hi : invalidArg key value = false) :
    LookupEnv (Setenv env key value) key = some value := by
  unfold Setenv
  simp [hi]
  exact lookup_setEntry_same env key value (invalidArg_false key value hi).1
    (invalidArg_false key value hi).2.1

/-- The entries after the rewrite are old entries or the entry written. -/
theorem mem_setEntry (env : Env) (key value e : String) (he : e ∈ setEntry key value env) :
    e ∈ env ∨ e = key ++ "=" ++ value := by
  induction env with
  | nil =>
    simp [setEntry] at he
    exact Or.inr he
  | cons a as ih =>
    unfold setEntry at he
    split_ifs at he with ha
    · rcases List.mem_cons.mp he with rfl | h
      · exact Or.inr rfl
      · exact Or.inl (List.mem_cons_of_mem _ h)
    · rcases List.mem_cons.mp he with rfl | h
      · exact Or.inl (List.mem_cons_self _ _)
      · rcases ih h with h | h
        · exact Or.inl (List.mem_cons_of_mem _ h)
        · exact Or.inr h

/-- The value of a NUL-free entry is NUL-free. -/
theorem entryValue_nul (key e s : String) (h : entryValue key e = some s)
    (he : Char.ofNat 0 ∉ e.data) : Char.ofNat 0 ∉ s.data := by
  unfold entryValue at h
  cases hc : cutEq e.data with
  | none => simp [hc] at h
  | some kv =>
    have hd := cutEq_eq e.data kv.1 kv.2 hc
    simp [hc] at h
    rw [hd] at he
    rw [← h.2]
    intro hm
    exact he (by simp [hm])

/-- A value looked up in a NUL-free environment is NUL-free. -/
theorem lookup_nul (env : Env) (key s : String) (h : LookupEnv env key = some s)
    (henv : ∀ e ∈ env, Char.ofNat 0 ∉ e.data) : Char.ofNat 0 ∉ s.data := by
  unfold LookupEnv at h
  split_ifs at h with h0
  obtain ⟨e, he, hv⟩ := List.exists_of_findSome?_eq_some h
  exact entryValue_nul key e s hv (henv e he)

/-- Setting a variable keeps the environment NUL-free. -/
theorem Setenv_nul (env : Env) (key value : String)
    (henv : ∀ e ∈ env, Char.ofNat 0 ∉ e.data) :
    ∀ e ∈ Setenv env key value, Char.ofNat 0 ∉ e.data := by
  unfold Setenv
  cases hi : invalidArg key value with
  | true => simpa using henv
  | false =>
    simp
    intro e he
    rcases mem_setEntry env key value e he with h | h
    · exact henv e h
    · have hv := invalidArg_false key value hi
      rw [h, entry_data]
      simp [hv.2.2.1, hv.2.2.2]

/-- One aliasing step leaves every variable but its current name as it was. -/
theorem aliasStep_other (env : Env) (kv : String × String) (x : String) (hx : x ≠ kv.2) :
    LookupEnv (aliasStep env kv) x = LookupEnv env x := by
  unfold aliasStep
  cases LookupEnv env kv.1 with
  | none => rfl
  | some s => exact lookup_Setenv_other env kv.2 s x hx

/-- One aliasing step keeps the environment NUL-free. -/
theorem aliasStep_nul (env : Env) (kv : String × String)
    (henv : ∀ e ∈ env, Char.ofNat 0 ∉ e.data) :
    ∀ e ∈ aliasStep env kv, Char.ofNat 0 ∉ e.data := by
  unfold aliasStep
  cases LookupEnv env kv.1 with
  | none => exact henv
  | some s => exact Setenv_nul env kv.2 s henv

/-- The current name after one aliasing step. -/
theorem aliasStep_target (env : Env) (kv : String × String) (hv : invalidArg kv.2 "" = false)
    (henv : ∀ e ∈ env, Char.ofNat 0 ∉ e.data) :
    LookupEnv (aliasStep env kv) kv.2 =
      match LookupEnv env kv.1 with
      | some s => some s
      | none => LookupEnv env kv.2 := by
  unfold aliasStep
  cases hl : LookupEnv env kv.1 with
  | none => rfl
  | some s =>
    exact lookup_Setenv_same env kv.2 s
      (invalidArg_of_valid kv.2 s hv (lookup_nul env kv.1 s hl henv))

/-- The aliasing loop leaves every variable that is no current name as it was. -/
theorem aliasLegacy_other (order : List (String × String)) (env : Env) (x : String)
    (hx : ∀ kv ∈ order, x ≠ kv.2) :
    LookupEnv (aliasLegacy order env) x = LookupEnv env x := by
  unfold aliasLegacy
  induction order generalizing env with
  | nil => rfl
  | cons kv rest ih =>
    rw [List.foldl_cons, ih _ (fun kv' h => hx kv' (List.mem_cons_of_mem _ h))]
    exact aliasStep_other env kv x (hx kv (List.mem_cons_self _ _))

/-- The current names after the aliasing loop, for a map whose current names
are valid keys, pairwise distinct and distinct from every legacy name. -/
theorem aliasLegacy_target (order : List (String × String)) (env : Env)
    (h1 : ∀ kv ∈ order, invalidArg kv.2 "" = false)
    (h2 : ∀ kv ∈ order, ∀ kv' ∈ order, kv.1 ≠ kv'.2)
    (h3 : (order.map Prod.snd).Nodup)
    (henv : ∀ e ∈ env, Char.ofNat 0 ∉ e.data) :
    ∀ kv ∈ order, LookupEnv (aliasLegacy order env) kv.2 =
      match LookupEnv env kv.1 with
      | some s => some s
      | none => LookupEnv env kv.2 := by
  induction order generalizing env with
  | nil => intro kv hkv; cases hkv
  | cons kv0 rest ih =>
    have hnd : kv0.2 ∉ rest.map Prod.snd ∧ (rest.map Prod.snd).Nodup := by
      simpa [List.nodup_cons] using h3
    have hstep : aliasLegacy (kv0 :: rest) env = aliasLegacy rest (aliasStep env kv0) := rfl
    intro kv hkv
    rw [hstep]
    rcases List.mem_cons.mp hkv with rfl | hin
    · rw [aliasLegacy_other rest _ kv.2
        (fun kv' h' heq => hnd.1 (heq ▸ List.mem_map_of_mem Prod.snd h'))]
      exact aliasStep_target env kv (h1 kv (List.mem_cons_self _ _)) henv
    · have hk2 : kv.2 ≠ kv0.2 := fun heq => hnd.1 (heq ▸ List.mem_map_of_mem Prod.snd hin)
      have hk1 : kv.1 ≠ kv0.2 := h2 kv hkv kv0 (List.mem_cons_self _ _)
      rw [ih (aliasStep env kv0)
        (fun kv' h' => h1 kv' (List.mem_cons_of_mem _ h'))
        (fun a ha b hb => h2 a (List.mem_cons_of_mem _ ha) b (List.mem_cons_of_mem _ hb))
        hnd.2 (aliasStep_nul env kv0 henv) kv hin,
        aliasStep_other env kv0 kv.1 hk1, aliasStep_other env kv0 kv.2 hk2]

/-- C5, as stated, fails: with the legacy DRONE_HOSTNAME and the current
DRONE_MACHINE both set, the current variable holds the legacy value after the
aliasing step, not its own. -/
theorem aliasLegacy_overwrites_current :
    ("DRONE_HOSTNAME", "DRONE_MACHINE") ∈ legacy
    ∧ LookupEnv ["DRONE_HOSTNAME=old-host", "DRONE_MACHINE=new-host"] "DRONE_MACHINE"
        = some "new-host"
    ∧ LookupEnv (aliasLegacy legacy ["DRONE_HOSTNAME=old-host", "DRONE_MACHINE=new-host"])
        "DRONE_MACHINE" = some "old-host" := by
  decide

/-- C5, amended: for every process environment whose entries hold no NUL byte,
every order in which the loop visits the legacy map and every (legacy name,
current name) pair of it, after the aliasing step the current variable holds
the value of the legacy variable whenever the legacy variable is set, whether
or not the current variable was set before, and is unchanged when the legacy
variable is unset. -/
theorem aliasLegacy_copies_legacy (order : List (String × String)) (env : Env)
    (k v : String) (hperm : order.Perm legacy) (henv : ∀ e ∈ env, Char.ofNat 0 ∉ e.data)
    (hkv : (k, v) ∈ legacy) :
    (∀ s, LookupEnv env k = some s → LookupEnv (aliasLegacy order env) v = some s)
    ∧ (LookupEnv env k = none → LookupEnv (aliasLegacy order env) v = LookupEnv env v) := by
  have h1 : ∀ kv ∈ order, invalidArg kv.2 "" = false := fun kv h =>
    (by decide : ∀ kv ∈ legacy, invalidArg kv.2 "" = false) kv (hperm.mem_iff.mp h)
  have h2 : ∀ kv ∈ order, ∀ kv' ∈ order, kv.1 ≠ kv'.2 := fun a ha b hb =>
    (by decide : ∀ kv ∈ legacy, ∀ kv' ∈ legacy, kv.1 ≠ kv'.2) a (hperm.mem_iff.mp ha)
      b (hperm.mem_iff.mp hb)
  have h3 : (order.map Prod.snd).Nodup :=
    ((hperm.map Prod.snd).nodup_iff).mpr (by decide)
  have ht := aliasLegacy_target order env h1 h2 h3 henv (k, v) (hperm.mem_iff.mpr hkv)
  constructor
  · intro s hs
    rw [ht]
    simp [hs]
  · intro hs
    rw [ht]
    simp [hs]

/-- Witness of the amended C5: the pair DRONE_HOSTNAME, DRONE_MACHINE in an
environment that sets both, and the pair DRONE_NOMAD_REGION, DRONE_JOB_REGION
in an environment that sets only the current name. -/
theorem aliasLegacy_copies_legacy_witness :
    LookupEnv (aliasLegacy legacy ["DRONE_HOSTNAME=old-host", "DRONE_MACHINE=new-host"])
        "DRONE_MACHINE" = some "old-host"
    ∧ LookupEnv (aliasLegacy legacy ["DRONE_HOSTNAME=old-host", "DRONE_JOB_REGION=eu"])
        "DRONE_JOB_REGION" = some "eu" :=
  ⟨(aliasLegacy_copies_legacy legacy ["DRONE_HOSTNAME=old-host", "DRONE_MACHINE=new-host"]
      "DRONE_HOSTNAME" "DRONE_MACHINE" (List.Perm.refl _) (by decide) (by decide)).1
      "old-host" (by decide),
   ((aliasLegacy_copies_legacy legacy ["DRONE_HOSTNAME=old-host", "DRONE_JOB_REGION=eu"]
      "DRONE_NOMAD_REGION" "DRONE_JOB_REGION" (List.Perm.refl _) (by decide) (by decide)).2
      (by decide)).trans (by decide)⟩

/-- The entries of a map after an assignment are old entries or the entry assigned. -/
theorem mem_mapSet (m : GoMap) (k v : String) (kv : String × String)
    (h : kv ∈ mapSet m k v) : kv ∈ m ∨ kv = (k, v) := by
  induction m with
  | nil =>
    simp [mapSet] at h
    exact Or.inr h
  | cons a as ih =>
    unfold mapSet at h
    split_ifs at h with ha
    · rcases List.mem_cons.mp h with rfl | h'
      · exact Or.inr rfl
      · exact Or.inl (List.mem_cons_of_mem _ h')
    · rcases List.mem_cons.mp h with rfl | h'
      · exact Or.inl (List.mem_cons_self _ _)
      · rcases ih h' with h'' | h''
        · exact Or.inl (List.mem_cons_of_mem _ h'')
        · exact Or.inr h''

/-- The key of an entry that begins with DRONE_ begins with DRONE_. -/
theorem hasPrefix_key (e : String) (k v : List Char) (hp : HasPrefix e "DRONE_" = true)
    (hc : cutEq e.data = some (k, v)) : HasPrefix (String.mk k) "DRONE_" = true := by
  unfold HasPrefix at hp ⊢
  rw [List.isPrefixOf_iff_prefix] at hp
  obtain ⟨t, ht⟩ := hp
  rw [← ht] at hc
  have hd : "DRONE_".data = ['D', 'R', 'O', 'N', 'E', '_'] := rfl
  rw [hd] at hc ⊢
  simp [cutEq] at hc
  obtain ⟨a, b, _, rfl, _⟩ := hc
  simp [List.isPrefixOf]

/-- The second loop of `Load` keeps the keys of the map off the ignore list and
under the prefix DRONE_. -/
theorem collectEnviron_keys (entries : List String) (environ res : Option GoMap)
    (h0 : ∀ m, environ = some m → ∀ kv ∈ m, kv.1 ∉ ignore ∧ HasPrefix kv.1 "DRONE_" = true)
    (hc : collectEnviron entries environ = .ok res) :
    ∀ m, res = some m → ∀ kv ∈ m, kv.1 ∉ ignore ∧ HasPrefix kv.1 "DRONE_" = true := by
  induction entries generalizing environ with
  | nil =>
    simp [collectEnviron] at hc
    rw [← hc]
    exact h0
  | cons e rest ih =>
    unfold collectEnviron at hc
    cases hp : HasPrefix e "DRONE_" with
    | false =>
      simp [hp] at hc
      exact ih environ h0 hc
    | true =>
      simp only [hp, Bool.not_true, Bool.false_eq_true, if_false] at hc
      cases hcut : cutEq e.data with
      | none => simp [SplitN2, hcut] at hc
      | some kv =>
        have hk := hasPrefix_key e kv.1 kv.2 hp hcut
        simp only [SplitN2, hcut, List.get?] at hc
        split_ifs at hc with hi
        · exact ih environ h0 hc
        · refine ih _ ?_ hc
          intro m hm x hx
          simp only [Option.some.injEq] at hm
          rw [← hm] at hx
          rcases mem_mapSet _ _ _ x hx with h | h
          · cases henv : environ with
            | none =>
              rw [henv] at h
              cases h
            | some m0 =>
              rw [henv] at h
              exact h0 m0 henv x h
          · rw [h]
            exact ⟨hi, hk⟩

/-- An override with such a key keeps the keys of the map off the ignore list
and under the prefix DRONE_. -/
theorem overrideEnviron_keys (environ res : Option GoMap) (key v : String)
    (hkey : key ∉ ignore ∧ HasPrefix key "DRONE_" = true)
    (h0 : ∀ m, environ = some m → ∀ kv ∈ m, kv.1 ∉ ignore ∧ HasPrefix kv.1 "DRONE_" = true)
    (hc : overrideEnviron environ key v = .ok res) :
    ∀ m, res = some m → ∀ kv ∈ m, kv.1 ∉ ignore ∧ HasPrefix kv.1 "DRONE_" = true := by
  unfold overrideEnviron at hc
  split_ifs at hc with hv
  · cases henv : environ with
    | none => simp [henv] at hc
    | some m0 =>
      simp [henv] at hc
      intro m hm x hx
      rw [← hc] at hm
      simp only [Option.some.injEq] at hm
      rw [← hm] at hx
      rcases mem_mapSet _ _ _ x hx with h | h
      · exact h0 m0 henv x h
      · rw [h]
        exact hkey
  · simp at hc
    rw [← hc]
    exact h0

/-- The keys that `Load` itself puts into the passthrough map: when `Load`
succeeds and every key of the map that `envconfig.Process` left in the field
is off the ignore list and begins with DRONE_, so is every key of
`Config.Environ`, the callback host and protocol overrides included. -/
theorem Load_keeps_environ_keys (order : List (String × String))
    (process : Env → Config × Option Err) (hostname : String) (env : Env) (config : Config)
    (hproc : ∀ m, (process (aliasLegacy order env)).1.Environ = some m →
      ∀ kv ∈ m, kv.1 ∉ ignore ∧ HasPrefix kv.1 "DRONE_" = true)
    (hload : Load order process hostname env = .ok config) :
    ∀ m, config.Environ = some m →
      ∀ kv ∈ m, kv.1 ∉ ignore ∧ HasPrefix kv.1 "DRONE_" = true := by
  unfold Load at hload
  simp only at hload
  cases herr : (process (aliasLegacy order env)).2 with
  | some err => simp [herr] at hload
  | none =>
    simp only [herr] at hload
    split at hload
    · cases hload
    · rename_i e1 hc1
      split at hload
      · cases hload
      · rename_i e2 hc2
        split at hload
        · cases hload
        · rename_i e3 hc3
          simp only [LoadResult.ok.injEq] at hload
          rw [← hload]
          simp only
          have k1 := collectEnviron_keys _ _ e1 (by
            intro m hm
            split_ifs at hm <;> exact hproc m hm) hc1
          have k2 := overrideEnviron_keys e1 e2 _ _ (by decide) k1 hc2
          exact overrideEnviron_keys e2 e3 _ _ (by decide) k2 hc3

/-- C6 fails on the code: in the environment that sets the server host and
secret and the variable named `-` to DRONE_IMAGE:evil,PATH:/tmp, the library
binds the passthrough map to that variable, `Load` succeeds and keeps both
entries, so `Config.Environ` holds DRONE_IMAGE, a key of the ignore list, and
PATH, a key that does not begin with DRONE_. -/
theorem Load_environ_holds_ignored_key :
    ∃ config, Load legacy scenarioProcess "node-1"
        ["DRONE_RPC_HOST=drone.example.com", "DRONE_RPC_SECRET=s3cret",
         "-=DRONE_IMAGE:evil,PATH:/tmp"] = .ok config
      ∧ config.Environ = some [("DRONE_IMAGE", "evil"), ("PATH", "/tmp"),
          ("DRONE_RPC_HOST", "drone.example.com"), ("DRONE_RPC_SECRET", "s3cret")]
      ∧ "DRONE_IMAGE" ∈ ignore
      ∧ HasPrefix "PATH" "DRONE_" = false :=
  ⟨_, rfl, rfl, by decide, by decide⟩

end DroneNomad
